import Mathlib

/-!
Shallow embedding of the go-recipe engine (package `recipe`) and proofs
about it.

Source files embedded: `builder.go` (Builder, cache, tree construction),
`executor.go` (Executor: prepareExecute, applyContext, resolveRecipe,
resolveTree, combine walk, apply walk), `recipe.go` (Recipe, ExecTree),
grammar/operation contracts from `grammar.go` and the operation registry.

Modelling conventions:
* Go `reflect.Type` values are modelled by `GoType`; struct identity is
  structural equality, matching reflect's type identity for identical
  struct layouts.
* Machine pointers (`unsafe.Pointer`) are naturals; an instance's memory
  is a function `Nat → Val` and the precompiled accessors
  (`structAddressor`, `fieldExtractor`) become offset arithmetic on it,
  which is exactly what the compiled closures in `builder.go` do.  The
  per-kind fast paths of `compileFieldExtractor` all read the value at
  `ptr + offset`, so they collapse to a single read here.
* Go interfaces (`Operation`, `Combiner`, `Applier`, `Grammar`) become
  structures of functions.
* In-place pointer mutation (the cached `*Recipe`, and `resolveTree`
  appending to tree nodes through the cached recipe's root pointer) is
  modelled by an explicit heap of recipes (`BState`): the cache maps a
  type to a recipe id and mutations rewrite the heap at that id, so
  aliasing between the cache and the value being mutated is preserved.
* `fmt.Errorf("...: %w", err)` is `GoErr.wrap`; a Go runtime panic
  (e.g. `reflect.Type.NumField` on a non-struct) is `GoErr.goPanic`,
  which propagates through wrapping untouched, as a panic would.
* External calls made during a walk (operation executions, applier
  writes, field reads) are recorded in an event trace so that claims
  about "is invoked" / "is written" are statements about the trace.
-/

namespace GoRecipe

/-- Dynamic (`any`) values flowing through operations, combiners and
fields. -/
inductive Val where
  | vNil
  | vBool (b : Bool)
  | vInt (n : Int)
  | vStr (s : String)
deriving DecidableEq, Repr

/-- The subset of `reflect.Kind` the builder distinguishes. -/
inductive GoKind where
  | kStruct
  | kBool
  | kInt
  | kString
  | kPtr
  | kInvalid
  | kOther
deriving DecidableEq, Repr

mutual

/-- A Go type as seen through `reflect`: a named struct with fields, a
named non-struct ("primitive") type, or a pointer type. -/
inductive GoType where
  | struct (name : String) (fields : List GoField)
  | prim (name : String) (kind : GoKind)
  | ptr (elem : GoType)

/-- One `reflect.StructField`: name, exportedness, the struct tag as a
key/value list, byte offset, and the field's type. -/
inductive GoField where
  | mk (name : String) (exported : Bool) (tags : List (String × String))
      (offset : Nat) (typ : GoType)

end

mutual

/-- Structural equality of types, standing in for `reflect.Type`
identity (identical struct layouts are one `reflect.Type` in Go). -/
def GoType.beq : GoType → GoType → Bool
  | .struct n fs, .struct n' fs' => n == n' && GoField.beqList fs fs'
  | .prim n k, .prim n' k' => n == n' && k == k'
  | .ptr e, .ptr e' => GoType.beq e e'
  | _, _ => false

def GoField.beq : GoField → GoField → Bool
  | .mk n e t o ty, .mk n' e' t' o' ty' =>
      n == n' && e == e' && t == t' && o == o' && GoType.beq ty ty'

def GoField.beqList : List GoField → List GoField → Bool
  | [], [] => true
  | f :: fs, f' :: fs' => GoField.beq f f' && GoField.beqList fs fs'
  | _, _ => false

end

instance : BEq GoType := ⟨GoType.beq⟩

namespace GoField

def name : GoField → String
  | .mk n _ _ _ _ => n

def exported : GoField → Bool
  | .mk _ e _ _ _ => e

def tags : GoField → List (String × String)
  | .mk _ _ t _ _ => t

def offset : GoField → Nat
  | .mk _ _ _ o _ => o

def typ : GoField → GoType
  | .mk _ _ _ _ t => t

end GoField

namespace GoType

/-- `reflect.Type.Kind()`. -/
def kind : GoType → GoKind
  | .struct _ _ => .kStruct
  | .prim _ k => k
  | .ptr _ => .kPtr

/-- `reflect.Type.Name()` (pointer types are unnamed in Go). -/
def name : GoType → String
  | .struct n _ => n
  | .prim n _ => n
  | .ptr _ => ""

/-- Placeholder for a nil `reflect.Type` (the zero value of the
`fieldType` attribute before the builder assigns it). -/
def nilType : GoType := .prim "<nil>" .kInvalid

end GoType

/-- `reflect.StructTag.Get`: value for a key, `""` when absent. -/
def tagGet (tags : List (String × String)) (key : String) : String :=
  match tags.find? (fun kv => kv.1 == key) with
  | some kv => kv.2
  | none => ""

/-- Errors.  Sentinel `fmt.Errorf` package variables and structured
messages are constructors; `wrap` is `fmt.Errorf(".. %w", e)`; `goPanic`
is a runtime panic (a crash, not an error return). -/
inductive GoErr where
  | notStructKind
  | emptyTag
  | notPointerKind
  | notStructElem
  | walkArgsMismatch
  | walkTypeMismatch
  | opNotFound
  | noWalkedArgs
  | arityMismatch (fieldName opName : String) (opArity rcpArity : Nat)
  | unknownStrategy (s : Nat)
  | opFailed (msg : String)
  | otherErr (msg : String)
  | wrap (ctx : String) (e : GoErr)
  | goPanic (msg : String)
deriving DecidableEq, Repr

/-- Error wrapping as the Go code performs it with `fmt.Errorf` and
`%w`.  A panic is not an error value in Go: it unwinds past all the
`if err != nil` wrapping sites, so wrapping leaves it untouched. -/
def wrapE (ctx : String) (e : GoErr) : GoErr :=
  match e with
  | .goPanic m => .goPanic m
  | e => .wrap ctx e

/-- `errors.Is`: equality at the top, else unwrap. -/
def GoErr.is (e target : GoErr) : Bool :=
  if e == target then true
  else
    match e with
    | .wrap _ inner => inner.is target
    | _ => false

/-! ## Operations and the registry (`executor.go`, second unit) -/

/-- `OpOpts` is an empty struct in the source. -/
abbrev OpOpts := Unit

/-- `OpArity` is a `uint8`; its zero value is `0`. -/
abbrev OpArity := Nat

/-- `OpUnary OpArity = iota + 1`. -/
def opUnary : OpArity := 1

/-- `OpVariadic = 255`. -/
def opVariadic : OpArity := 255

/-- `MultiOpStrategy` is a `uint8`; the walk code switches on it with a
`default` branch, so it is kept numeric. -/
abbrev MultiOpStrategy := Nat

/-- `FirstSuccess MultiOpStrategy = iota` (also the zero value a built
leaf keeps, since `buildField` never assigns `OpStrategy`). -/
def firstSuccess : MultiOpStrategy := 0

/-- `AllOrNothing`. -/
def allOrNothing : MultiOpStrategy := 1

/-- The `Operation` interface: an arity tag and `Execute`. -/
structure Operation where
  arity : OpArity
  execute : OpOpts → List Val → Except GoErr Val

/-- `LazyOperation`: an unresolved named operation reference. -/
structure LazyOperation where
  name : String
  opts : OpOpts := ()

/-- `ResolvedOperation`: the embedded `LazyOperation` fields plus the
bound `Operation`. -/
structure ResolvedOperation where
  name : String
  opts : OpOpts := ()
  op : Operation

/-- `OpRegistry`: the name→operation map (later registrations shadow
earlier ones, as for a Go map written in order). -/
abbrev OpRegistry := List (String × Operation)

/-- `OpRegistry.getOperation`. -/
def getOperation (reg : OpRegistry) (name : String) : Except GoErr Operation :=
  match reg.find? (fun kv => kv.1 == name) with
  | some kv => .ok kv.2
  | none => .error .opNotFound

/-- `OpRegistry.resolveOperation`. -/
def resolveOperation (reg : OpRegistry) (lazyOp : LazyOperation) :
    Except GoErr ResolvedOperation :=
  match getOperation reg lazyOp.name with
  | .error e => .error e
  | .ok op => .ok { name := lazyOp.name, opts := lazyOp.opts, op := op }

/-! ## Walk-mode plumbing (`unnamed/part_001`) -/

/-- `WalkType` (`CombineWalk`, `ApplyWalk`, `TransformWalk`). -/
inductive WalkType where
  | combine
  | apply
  | transform
deriving DecidableEq, Repr

/-- The `Combiner` interface. -/
structure Combiner where
  zero : Val
  combine : Val → Val → Val

/-- The `Applier` interface; `apply` receives the instance pointer, the
field offset, the field type and the value to write. -/
structure Applier where
  apply : Nat → Nat → GoType → Val → Except GoErr Unit

/-- The `Transformer` interface (the transform walk is unimplemented in
the source; the value is only stored and overridden, never called). -/
structure Transformer where
  transform : Nat → Except GoErr Unit

/-- `ExecContext`: per-call overrides (`unnamed/part_000`). -/
structure ExecContext where
  combinerOverride : Option Combiner := none
  applierOverride : Option Applier := none
  transformerOverride : Option Transformer := none

/-! ## Plan data types (`recipe.go`) -/

/-- The per-node attributes of an `ExecTree` other than the children.
Defaults are the Go zero values a freshly built node keeps when the
builder does not assign the attribute (`OpStrategy` in particular is
never assigned and stays `FirstSuccess = 0`). -/
structure NodeData where
  name : String := ""
  fieldIdx : Nat := 0
  fieldOffset : Nat := 0
  fieldKind : GoKind := .kInvalid
  fieldType : GoType := GoType.nilType
  opStrategy : MultiOpStrategy := 0
  lazyOps : List LazyOperation := []
  operations : List ResolvedOperation := []

/-- `ExecTree`: node data plus children.  The precompiled
`fieldExtractor` / `structAddressor` closures are fully determined by
`fieldOffset` (and `fieldType`), so they are represented by the offset
they capture; see `structAddressor` / `fieldExtractor` below. -/
inductive ExecTree where
  | mk (data : NodeData) (children : List ExecTree)

def ExecTree.data : ExecTree → NodeData
  | .mk d _ => d

def ExecTree.children : ExecTree → List ExecTree
  | .mk _ c => c

/-- `ExecTree.hasChild`. -/
def ExecTree.hasChild (t : ExecTree) : Bool := t.children.length > 0

/-- `ExecTree.hasOperation`. -/
def ExecTree.hasOperation (t : ExecTree) : Bool := t.data.operations.length > 0

/-- Names of a node's resolved operations, in order (used to state
claims about resolved-operation lists). -/
def ExecTree.opNames (t : ExecTree) : List String :=
  t.data.operations.map ResolvedOperation.name

/-- `Recipe`.  `arity` is `OpArity`; note `buildRecipe` never assigns
it, so built recipes carry the zero value `0`. -/
structure Recipe where
  root : ExecTree
  arity : OpArity
  walkType : WalkType
  combiner : Option Combiner := none
  applier : Option Applier := none
  transformer : Option Transformer := none
  resolved : Bool

/-! ## Grammar contract (`grammar.go`) -/

/-- The `Grammar` interface.  `combinerE`/`applierE`/`transformerE` are
the results of calling `Combiner()`/`Applier()`/`Transformer()` (each
returns an error when the walk type does not use it). -/
structure Grammar where
  key : String
  walkType : WalkType
  combinerE : Except GoErr Combiner
  applierE : Except GoErr Applier
  transformerE : Except GoErr Transformer
  split : String → Except GoErr (List String)
  parse : String → Except GoErr LazyOperation
  order : List LazyOperation → Except GoErr (List LazyOperation)

/-! ## Plan Builder (`builder.go`) -/

/-- The parse loop inside `Builder.buildField`. -/
def parseOps (g : Grammar) (fieldName : String) :
    List String → Except GoErr (List LazyOperation)
  | [] => .ok []
  | s :: rest =>
    match g.parse s with
    | .error e =>
        .error (wrapE ("parsing operation " ++ s ++ " for field " ++ fieldName) e)
    | .ok lazyOp =>
      match parseOps g fieldName rest with
      | .error e => .error e
      | .ok lazyOps => .ok (lazyOp :: lazyOps)

/-- `Builder.buildField`.  Mirrors the Go `(*ExecTree, error)` pair:
an empty or `"-"` tag yields `(nil, ErrEmptyTag)`. -/
def buildField (g : Grammar) (f : GoField) : Option ExecTree × Option GoErr :=
  let tag := tagGet f.tags g.key
  if tag == "" || tag == "-" then (none, some .emptyTag)
  else
    match g.split tag with
    | .error e =>
        (none, some (wrapE ("splitting operations for field " ++ f.name) e))
    | .ok opStrs =>
      match parseOps g f.name opStrs with
      | .error e => (none, some e)
      | .ok lazyOps =>
        match g.order lazyOps with
        | .error e =>
            (none, some (wrapE ("ordering operations for field " ++ f.name) e))
        | .ok orderedOps =>
            (some (.mk { name := f.name, lazyOps := orderedOps,
                         operations := [] } []), none)

/-- The metadata assignments `buildTree` performs on a child struct
node (`cTree.Name = field.Name` and the hot-path attributes). -/
def setChildMeta (t : ExecTree) (f : GoField) (i : Nat) : ExecTree :=
  match t with
  | .mk d cs =>
      .mk { d with name := f.name, fieldIdx := i, fieldType := f.typ, fieldOffset := f.offset, fieldKind := f.typ.kind } cs

/-- The metadata assignments `buildTree` performs on a leaf node
(`buildField` already set the name). -/
def setLeafMeta (t : ExecTree) (f : GoField) (i : Nat) : ExecTree :=
  match t with
  | .mk d cs =>
      .mk { d with fieldIdx := i, fieldType := f.typ, fieldOffset := f.offset, fieldKind := f.typ.kind } cs

mutual

/-- `Builder.buildTree`.  On a non-struct type the Go code reaches
`reflect.Type.NumField`, which panics. -/
def buildTree (g : Grammar) : GoType → Except GoErr ExecTree
  | .struct n fields =>
    match buildFieldsLoop g fields 0 with
    | .error e => .error e
    | .ok children =>
        .ok (.mk { name := n, lazyOps := [], operations := [] } children)
  | t => .error (.goPanic ("reflect: NumField of non-struct type " ++ t.name))

/-- The field loop of `Builder.buildTree`.  The branch
`if fTree == nil || errors.Is(err, ErrEmptyTag) { continue }` is kept
exactly where the source has it: after the `err != nil` early return,
where it can no longer fire. -/
def buildFieldsLoop (g : Grammar) : List GoField → Nat → Except GoErr (List ExecTree)
  | [], _ => .ok []
  | .mk fname fexp ftags foff ftyp :: rest, i =>
    let f : GoField := .mk fname fexp ftags foff ftyp
    if fexp = false then buildFieldsLoop g rest (i + 1)
    else if ftyp.kind == .kStruct then
      match buildTree g ftyp with
      | .error e => .error (wrapE ("field " ++ fname ++ ", child exec tree") e)
      | .ok cTree =>
        match buildFieldsLoop g rest (i + 1) with
        | .error e => .error e
        | .ok siblings => .ok (setChildMeta cTree f i :: siblings)
    else
      match buildField g f with
      | (_, some e) => .error (wrapE ("field " ++ fname ++ ", exec tree") e)
      | (fTree?, none) =>
        match fTree? with
        | none => buildFieldsLoop g rest (i + 1)
        | some fTree =>
          match buildFieldsLoop g rest (i + 1) with
          | .error e => .error e
          | .ok siblings => .ok (setLeafMeta fTree f i :: siblings)

end

/-- `Builder.buildRecipe`.  `Recipe.Arity` is never assigned anywhere
in the function, so the built recipe carries the `OpArity` zero value
`0`. -/
def buildRecipe (g : Grammar) (wt : GoType) : Except GoErr Recipe :=
  match buildTree g wt with
  | .error e => .error (wrapE ("building struct recipe for type " ++ wt.name) e)
  | .ok eTree =>
    let rcp : Recipe :=
      { root := eTree, arity := 0, walkType := g.walkType, resolved := false }
    match g.walkType with
    | .combine =>
      match g.combinerE with
      | .error e => .error (wrapE "getting combiner for walk type" e)
      | .ok c => .ok { rcp with combiner := some c }
    | .apply =>
      match g.applierE with
      | .error e => .error (wrapE "getting applier for walk type" e)
      | .ok a => .ok { rcp with applier := some a }
    | .transform =>
      match g.transformerE with
      | .error e => .error (wrapE "getting transformer for walk type" e)
      | .ok tr => .ok { rcp with transformer := some tr }

/-! ## Plan cache state

The Go cache stores `*Recipe` pointers and both `resolveRecipe` and
`applyContext` mutate the pointed-to recipe (and, through `Root`, its
tree nodes) in place.  `BState` makes that aliasing explicit: `heap`
is the set of allocated recipes addressed by id, and `cache` maps a
struct type to the id it holds. -/
structure BState where
  cache : GoType → Option Nat
  heap : Nat → Option Recipe
  next : Nat

/-- A fresh builder state (`NewBuilder`). -/
def BState.empty : BState :=
  { cache := fun _ => none, heap := fun _ => none, next := 0 }

/-- Overwrite the recipe a pointer id refers to (an in-place mutation
of the pointed-to `Recipe` in Go). -/
def BState.write (st : BState) (id : Nat) (r : Recipe) : BState :=
  { st with heap := fun j => if j = id then some r else st.heap j }

/-- Point the cache entry for `t` at recipe id `id`. -/
def BState.setCache (st : BState) (t : GoType) (id : Nat) : BState :=
  { st with cache := fun u => if u == t then some id else st.cache u }

/-- Allocate a new recipe (`&Recipe{...}`), returning its id. -/
def BState.alloc (st : BState) (r : Recipe) : BState × Nat :=
  ({ cache := st.cache,
     heap := fun j => if j = st.next then some r else st.heap j,
     next := st.next + 1 }, st.next)

/-- `Builder.Set`. -/
def builderSet (wt : GoType) (id : Nat) (st : BState) : BState × Option GoErr :=
  if wt.kind == .kStruct then (st.setCache wt id, none)
  else (st, some .notStructKind)

/-- `Builder.Build`. -/
def build (g : Grammar) (wt : GoType) (cacheIt : Bool) (st : BState) :
    BState × Except GoErr Nat :=
  match buildRecipe g wt with
  | .error e => (st, .error e)
  | .ok rcp =>
    let (st1, id) := st.alloc rcp
    if cacheIt then (st1.setCache wt id, .ok id) else (st1, .ok id)

/-- `Builder.GetOrBuild`. -/
def getOrBuild (g : Grammar) (wt : GoType) (st : BState) :
    BState × Except GoErr Nat :=
  if wt.kind == .kStruct then
    match st.cache wt with
    | some id => (st, .ok id)
    | none => build g wt true st
  else (st, .error .notStructKind)

/-! ## Resolution (`executor.go`) -/

/-- The lazy-operation loop of `Executor.resolveTree`: it appends to
the node's existing `Operations` slice (in place, through the cached
tree), and on failure the operations appended so far remain. -/
def resolveOps (reg : OpRegistry) (fieldName : String) (arity : OpArity)
    (ops : List ResolvedOperation) :
    List LazyOperation → List ResolvedOperation × Option GoErr
  | [] => (ops, none)
  | lazyOp :: rest =>
    match resolveOperation reg lazyOp with
    | .error e =>
        (ops, some (wrapE ("field " ++ fieldName ++ ", resolving operation " ++ lazyOp.name) e))
    | .ok rOp =>
      if rOp.op.arity ≠ arity then
        (ops, some (.arityMismatch fieldName lazyOp.name rOp.op.arity arity))
      else
        resolveOps reg fieldName arity (ops ++ [rOp]) rest

mutual

/-- `Executor.resolveTree`.  Returns the (possibly partially) mutated
tree together with the error, because the Go code mutates the nodes of
the cached recipe in place before any failure aborts the walk. -/
def resolveTree (reg : OpRegistry) (t : ExecTree) (arity : OpArity) :
    ExecTree × Option GoErr :=
  match t with
  | .mk d cs =>
    match resolveOps reg d.name arity d.operations d.lazyOps with
    | (ops', some e) => (.mk { d with operations := ops' } cs, some e)
    | (ops', none) =>
      match resolveChildren reg cs arity with
      | (cs', e?) => (.mk { d with operations := ops' } cs', e?)

/-- The child loop of `Executor.resolveTree`: an error stops the loop,
leaving the remaining children untouched. -/
def resolveChildren (reg : OpRegistry) (cs : List ExecTree) (arity : OpArity) :
    List ExecTree × Option GoErr :=
  match cs with
  | [] => ([], none)
  | c :: rest =>
    match resolveTree reg c arity with
    | (c', some e) => (c' :: rest, some e)
    | (c', none) =>
      match resolveChildren reg rest arity with
      | (rest', e?) => (c' :: rest', e?)

end

/-- `Executor.resolveRecipe`.  The tree mutation performed by
`resolveTree` is written back to the heap before the error check, since
in Go it happened through the cached recipe's `Root` pointer; on
success the `resolved` flag is set and the recipe is re-published with
`Builder.Set`. -/
def resolveRecipe (reg : OpRegistry) (g : Grammar) (wet : GoType) (st : BState) :
    BState × Except GoErr Nat :=
  match getOrBuild g wet st with
  | (st1, .error e) => (st1, .error e)
  | (st1, .ok id) =>
    match st1.heap id with
    | none => (st1, .error (.goPanic "invalid memory address or nil pointer dereference"))
    | some rcp =>
      if rcp.resolved then
        let st2 := st1.write id { rcp with resolved := true }
        match builderSet wet id st2 with
        | (st3, none) => (st3, .ok id)
        | (_, some e) => (st2, .error e)
      else
        match resolveTree reg rcp.root rcp.arity with
        | (root', some e) =>
            (st1.write id { rcp with root := root' }, .error (wrapE "resolving exec tree" e))
        | (root', none) =>
          let st2 := st1.write id { rcp with root := root', resolved := true }
          match builderSet wet id st2 with
          | (st3, none) => (st3, .ok id)
          | (_, some e) => (st2, .error e)

/-! ## Execution preparation (`executor.go`) -/

/-- `Executor.validKind` composed with `Elem()`:
`Executor.elemType`. -/
def elemType (t : GoType) : Except GoErr GoType :=
  match t with
  | .ptr e => if e.kind == .kStruct then .ok e else .error .notStructElem
  | _ => .error .notPointerKind

/-- One walked argument: the dynamic type of the `any` and the machine
address `reflect.ValueOf(w).Pointer()` yields. -/
structure WalkedArg where
  typ : GoType
  addr : Nat

/-- `Executor.applyContext`: a non-nil override is assigned directly to
the cached recipe's field. -/
def applyContext (ctx : Option ExecContext) (id : Nat) (st : BState) : BState :=
  match ctx with
  | none => st
  | some c =>
    match st.heap id with
    | none => st
    | some rcp =>
      match rcp.walkType with
      | .combine =>
        match c.combinerOverride with
        | some cb => st.write id { rcp with combiner := some cb }
        | none => st
      | .apply =>
        match c.applierOverride with
        | some ap => st.write id { rcp with applier := some ap }
        | none => st
      | .transform =>
        match c.transformerOverride with
        | some tr => st.write id { rcp with transformer := some tr }
        | none => st

/-- The `i >= 1` argument loop of `Executor.prepareExecute`. -/
def checkArgs (wet : GoType) : List WalkedArg → Nat → Option GoErr
  | [], _ => none
  | w :: rest, i =>
    match elemType w.typ with
    | .error e => some (wrapE ("walked argument " ++ toString i) e)
    | .ok iet =>
      if (wet == iet) = false then
        some (wrapE ("walked argument " ++ toString i) .walkArgsMismatch)
      else checkArgs wet rest (i + 1)

/-- `Executor.prepareExecute`. -/
def prepareExecute (reg : OpRegistry) (g : Grammar) (ctx : Option ExecContext)
    (wt : WalkType) (walked : List WalkedArg) (st : BState) :
    BState × Except GoErr Nat :=
  match walked with
  | [] => (st, .error .noWalkedArgs)
  | w0 :: rest =>
    match elemType w0.typ with
    | .error e => (st, .error (wrapE "resolving elem of walked type" e))
    | .ok wet =>
      match resolveRecipe reg g wet st with
      | (st1, .error e) => (st1, .error (wrapE "resolving recipe" e))
      | (st1, .ok id) =>
        match st1.heap id with
        | none => (st1, .error (.goPanic "invalid memory address or nil pointer dereference"))
        | some rcp =>
          if rcp.walkType ≠ wt then (st1, .error .walkTypeMismatch)
          else
            let st2 := applyContext ctx id st1
            match checkArgs wet rest 1 with
            | some e => (st2, .error e)
            | none => (st2, .ok id)

/-! ## Walks (`executor.go`)

The external calls a walk makes are recorded as events, so that claims
about which operations were invoked and which writes the applier was
asked to perform are statements about the trace. -/

/-- Observable calls made during a walk. -/
inductive Event where
  | readField (addr : Nat)
  | execOp (name : String) (sources : List Val)
  | applyField (addr offset : Nat) (typ : GoType) (value : Val)

/-- The memory of the walked instances. -/
abbrev Mem := Nat → Val

/-- The precompiled `structAddressor` closure: plain offset
arithmetic. -/
def structAddressor (t : ExecTree) (p : Nat) : Nat := p + t.data.fieldOffset

/-- The precompiled `fieldExtractor` closure: read the field's value at
`ptr + offset` (all the per-kind fast paths and the reflect fallback
return exactly the value stored at that location). -/
def fieldExtractor (t : ExecTree) (mem : Mem) (p : Nat) : Val :=
  mem (p + t.data.fieldOffset)

/-- `Executor.extractChildPointers`. -/
def extractChildPointers (t : ExecTree) (wPtrs : List Nat) : List Nat :=
  wPtrs.map (structAddressor t)

/-- `Executor.extractFieldValues`. -/
def extractFieldValues (t : ExecTree) (mem : Mem) (wPtrs : List Nat) : List Val :=
  wPtrs.map (fieldExtractor t mem)

/-- The operation loop of `Executor.walkCombiner` on a leaf node.  An
operation error aborts immediately (the `/*opts placehold*/` branch is
`if false`, dead); on success the strategy switch either returns the
result (`FirstSuccess`) or folds it (`AllOrNothing`). -/
def combineLeafOps (c : Combiner) (fieldName : String) (strategy : MultiOpStrategy)
    (wFields : List Val) (acc : Val) :
    List ResolvedOperation → List Event × Except GoErr Val
  | [] => ([], .ok acc)
  | op :: rest =>
    let ev := Event.execOp op.name wFields
    match op.op.execute op.opts wFields with
    | .error e =>
        ([ev], .error (wrapE ("executing operation " ++ op.name ++ " on field " ++ fieldName) e))
    | .ok res =>
      if strategy = 0 then ([ev], .ok res)
      else if strategy = 1 then
        match combineLeafOps c fieldName strategy wFields (c.combine acc res) rest with
        | (tr, r) => (ev :: tr, r)
      else ([ev], .error (.unknownStrategy strategy))

mutual

/-- `Executor.walkCombiner`. -/
def walkCombiner (c : Combiner) (t : ExecTree) (wPtrs : List Nat) (mem : Mem) :
    List Event × Except GoErr Val :=
  match t with
  | .mk d cs =>
    if cs.length > 0 then
      combineChildren c cs wPtrs mem c.zero
    else if d.operations.length > 0 then
      let reads := wPtrs.map (fun p => Event.readField (p + d.fieldOffset))
      let wFields := wPtrs.map (fun p => mem (p + d.fieldOffset))
      match combineLeafOps c d.name d.opStrategy wFields c.zero d.operations with
      | (tr, r) => (reads ++ tr, r)
    else ([], .ok c.zero)

/-- The child loop of `Executor.walkCombiner` on a struct node. -/
def combineChildren (c : Combiner) (cs : List ExecTree) (wPtrs : List Nat)
    (mem : Mem) (acc : Val) : List Event × Except GoErr Val :=
  match cs with
  | [] => ([], .ok acc)
  | cTree :: rest =>
    let cPtrs := extractChildPointers cTree wPtrs
    match walkCombiner c cTree cPtrs mem with
    | (tr, .error e) =>
        (tr, .error (wrapE ("executing struct child " ++ cTree.data.name) e))
    | (tr, .ok res) =>
      match combineChildren c rest wPtrs mem (c.combine acc res) with
      | (tr', r) => (tr ++ tr', r)

end

/-- `Executor.ExecuteCombineWalk`.  Result: the trace, the final cache
state and the combined value or error. -/
def executeCombineWalk (reg : OpRegistry) (g : Grammar) (ctx : Option ExecContext)
    (walked : List WalkedArg) (mem : Mem) (st : BState) :
    List Event × BState × Except GoErr Val :=
  match prepareExecute reg g ctx .combine walked st with
  | (st1, .error e) => ([], st1, .error (wrapE "preparing combine execute" e))
  | (st1, .ok id) =>
    match st1.heap id with
    | none => ([], st1, .error (.goPanic "invalid memory address or nil pointer dereference"))
    | some rcp =>
      let wPtrs := walked.map WalkedArg.addr
      match rcp.combiner with
      | none => ([], st1, .error (.goPanic "invalid memory address or nil pointer dereference"))
      | some c =>
        match walkCombiner c rcp.root wPtrs mem with
        | (tr, .error e) => (tr, st1, .error (wrapE "executing combine walk" e))
        | (tr, .ok acc) => (tr, st1, .ok (c.combine c.zero acc))

/-- The per-instance write loop of `Executor.walkApplier`: one
`Applier.Apply` call per walked pointer, in instance order, all at the
same offset and field type. -/
def applyAll (aplr : Applier) (fieldName : String) (off : Nat) (ty : GoType)
    (res : Val) : List Nat → List Event × Option GoErr
  | [] => ([], none)
  | p :: rest =>
    let ev := Event.applyField p off ty res
    match aplr.apply p off ty res with
    | .error e => ([ev], some (wrapE ("applying result to field " ++ fieldName) e))
    | .ok _ =>
      match applyAll aplr fieldName off ty res rest with
      | (tr, e?) => (ev :: tr, e?)

/-- The operation loop of `Executor.walkApplier` on a leaf node. -/
def applyLeafOps (aplr : Applier) (d : NodeData) (wPtrs : List Nat)
    (vals : List Val) : List ResolvedOperation → List Event × Option GoErr
  | [] => ([], none)
  | op :: rest =>
    let ev := Event.execOp op.name vals
    match op.op.execute op.opts vals with
    | .error e => ([ev], some (wrapE ("executing operation " ++ op.name) e))
    | .ok res =>
      match applyAll aplr d.name d.fieldOffset d.fieldType res wPtrs with
      | (tr, some e) => (ev :: tr, some e)
      | (tr, none) =>
        if d.opStrategy = 0 then (ev :: tr, none)
        else if d.opStrategy = 1 then
          match applyLeafOps aplr d wPtrs vals rest with
          | (tr', e?) => (ev :: tr ++ tr', e?)
        else (ev :: tr, some (.unknownStrategy d.opStrategy))

mutual

/-- `Executor.walkApplier`. -/
def walkApplier (aplr : Applier) (t : ExecTree) (wPtrs : List Nat)
    (vals : List Val) : List Event × Option GoErr :=
  match t with
  | .mk d cs =>
    if cs.length > 0 then
      applyChildren aplr cs wPtrs vals
    else if d.operations.length > 0 then
      applyLeafOps aplr d wPtrs vals d.operations
    else ([], none)

/-- The child loop of `Executor.walkApplier` on a struct node. -/
def applyChildren (aplr : Applier) (cs : List ExecTree) (wPtrs : List Nat)
    (vals : List Val) : List Event × Option GoErr :=
  match cs with
  | [] => ([], none)
  | cTree :: rest =>
    let cPtrs := extractChildPointers cTree wPtrs
    match walkApplier aplr cTree cPtrs vals with
    | (tr, some e) =>
        (tr, some (wrapE ("executing struct child " ++ cTree.data.name) e))
    | (tr, none) =>
      match applyChildren aplr rest wPtrs vals with
      | (tr', e?) => (tr ++ tr', e?)

end

/-- `Executor.ExecuteApplyWalk`. -/
def executeApplyWalk (reg : OpRegistry) (g : Grammar) (ctx : Option ExecContext)
    (walked : List WalkedArg) (vals : List Val) (st : BState) :
    List Event × BState × Option GoErr :=
  match prepareExecute reg g ctx .apply walked st with
  | (st1, .error e) => ([], st1, some (wrapE "preparing apply execute" e))
  | (st1, .ok id) =>
    match st1.heap id with
    | none => ([], st1, some (.goPanic "invalid memory address or nil pointer dereference"))
    | some rcp =>
      let wPtrs := walked.map WalkedArg.addr
      match rcp.applier with
      | none => ([], st1, some (.goPanic "invalid memory address or nil pointer dereference"))
      | some aplr =>
        match walkApplier aplr rcp.root wPtrs vals with
        | (tr, e?) => (tr, st1, e?)

/-! ## Concrete collaborators and record types used in the theorems

`Grammar`, `Combiner`, `Applier` and `Operation` are interfaces the
core consumes; the instances below are test doubles in the sense of the
spec's external-collaborator contracts. -/

/-- A combiner standing in for the grammar-supplied default (zero is
`vBool true`). -/
def combD : Combiner := { zero := .vBool true, combine := fun a _ => a }

/-- A distinguishable override combiner (zero is `vNil`). -/
def combO : Combiner := { zero := .vNil, combine := fun _ b => b }

/-- A combine-walk grammar with tag key `"op"`: each tag is a single
operation reference named by the tag itself, declaration order is
kept. -/
def gComb : Grammar :=
  { key := "op", walkType := .combine,
    combinerE := .ok combD,
    applierE := .error (.otherErr "grammar walk type does not use an applier"),
    transformerE := .error (.otherErr "grammar walk type does not use a transformer"),
    split := fun tag => .ok [tag],
    parse := fun s => .ok { name := s },
    order := fun lazyOps => .ok lazyOps }

/-- An applier collaborator that accepts every write. -/
def aplOk : Applier := { apply := fun _ _ _ _ => .ok () }

/-- An apply-walk grammar, otherwise like `gComb`. -/
def gApply : Grammar :=
  { gComb with
    walkType := WalkType.apply,
    combinerE := .error (.otherErr "grammar walk type does not use a combiner"),
    applierE := .ok aplOk }

/-- A registered operation named `"a"` with arity `0` (the only arity a
built recipe accepts, see claim C6) that always succeeds. -/
def opA : Operation := { arity := 0, execute := fun _ _ => .ok (.vStr "A") }

/-- A registry holding only `"a"`. -/
def regA : OpRegistry := [("a", opA)]

/-- `struct T1 { A int }` — an exported field with no tag under key
`"op"`. -/
def tyT1 : GoType := .struct "T1" [.mk "A" true [] 0 (.prim "int" .kInt)]

/-- `struct T4 { A int `op:"a"`; B int `op:"b"` }`. -/
def tyT4 : GoType :=
  .struct "T4" [.mk "A" true [("op", "a")] 0 (.prim "int" .kInt),
                .mk "B" true [("op", "b")] 8 (.prim "int" .kInt)]

/-- `struct T5 { A int `op:"a"` }`. -/
def tyT5 : GoType := .struct "T5" [.mk "A" true [("op", "a")] 0 (.prim "int" .kInt)]

/-- An empty record type `struct TE {}`. -/
def tyTE : GoType := .struct "TE" []

/-- A second, distinct empty record type `struct TU {}`. -/
def tyTU : GoType := .struct "TU" []

/-- All-constant memory for walked instances. -/
def memNil : Mem := fun _ => .vNil

/-- A `struct T1d { A int `op:"-"` }` — the placeholder tag. -/
def tyT1d : GoType := .struct "T1d" [.mk "A" true [("op", "-")] 0 (.prim "int" .kInt)]

/-- Resolved operation that always succeeds with `"resA"`. -/
def ropOkA : ResolvedOperation :=
  { name := "A", op := { arity := 0, execute := fun _ _ => .ok (.vStr "resA") } }

/-- Resolved operation `A` that always fails. -/
def ropFailA : ResolvedOperation :=
  { name := "A", op := { arity := 0, execute := fun _ _ => .error (.opFailed "boom") } }

/-- Resolved operation `B` that always succeeds with `"resB"`. -/
def ropB : ResolvedOperation :=
  { name := "B", op := { arity := 0, execute := fun _ _ => .ok (.vStr "resB") } }

/-- A leaf node named `F` under `FirstSuccess` holding operations
`[a, B]` in declared order. -/
def leafFS (a : ResolvedOperation) : ExecTree :=
  .mk { name := "F", opStrategy := 0, operations := [a, ropB] } []

/-- A unary operation (arity `OpUnary = 1`). -/
def opU : Operation := { arity := 1, execute := fun _ _ => .ok .vNil }

/-- Registry holding the unary operation under `"u"`. -/
def regU : OpRegistry := [("u", opU)]

/-- The recipe `buildRecipe gComb tyTE` produces. -/
def rcpTEB : Recipe :=
  { root := .mk { name := "TE", lazyOps := [], operations := [] } [],
    arity := 0, walkType := .combine, combiner := some combD, resolved := false }

/-- `rcpTEB` after successful resolution. -/
def rcpTEr : Recipe := { rcpTEB with resolved := true }

/-- Builder state after the first (failing) resolution attempt for
`tyT4` against `regA`. -/
def st4a : BState := (resolveRecipe regA gComb tyT4 BState.empty).1

/-- Builder state after the second (failing) resolution attempt. -/
def st4b : BState := (resolveRecipe regA gComb tyT4 st4a).1

/-- State after a first successful resolution of `T5`. -/
def st5 : BState := (resolveRecipe regA gComb tyT5 BState.empty).1

/-- Walked argument list holding one `*TE` instance. -/
def walkedTE : List WalkedArg := [⟨.ptr tyTE, 100⟩]

/-- Walked argument list mixing a `*TE` and a `*TU` instance. -/
def walkedTEU : List WalkedArg := [⟨.ptr tyTE, 100⟩, ⟨.ptr tyTU, 200⟩]

/-- Per-call context overriding the combiner with `combO`. -/
def ctxO : Option ExecContext := some { combinerOverride := some combO }

/-- Leaf data for the apply-walk witness: field `F` at offset `4` of
string type, `FirstSuccess`, one operation `B`. -/
def dApply : NodeData :=
  { name := "F", fieldOffset := 4, fieldType := .prim "string" .kString,
    opStrategy := 0,
    operations := [{ name := "B", op := { arity := 0, execute := fun _ _ => .ok (.vStr "w") } }] }

/-! ## Helper lemmas -/

mutual

theorem GoType.beq_self : (t : GoType) → GoType.beq t t = true
  | .struct n fs => by
      simp [GoType.beq, GoField.beqList_self fs]
  | .prim n k => by simp [GoType.beq]
  | .ptr e => by simpa [GoType.beq] using GoType.beq_self e

theorem GoField.fieldBeqSelf : (f : GoField) → GoField.beq f f = true
  | .mk n e t o ty => by
      simp [GoField.beq, GoType.beq_self ty]

theorem GoField.beqList_self : (fs : List GoField) → GoField.beqList fs fs = true
  | [] => rfl
  | f :: fs => by
      simp [GoField.beqList, GoField.fieldBeqSelf f, GoField.beqList_self fs]

end

theorem GoType.beq_self' (t : GoType) : (t == t) = true := GoType.beq_self t


theorem GoErr.is_self (e : GoErr) : e.is e = true := by
  unfold GoErr.is
  simp

theorem GoErr.wrap_is (s : String) (e t : GoErr) (h : ¬ GoErr.wrap s e = t) :
    (GoErr.wrap s e).is t = e.is t := by
  conv_lhs => unfold GoErr.is
  rw [if_neg (by simp [h])]

theorem applyAll_ok (aplr : Applier) (nm : String) (off : Nat) (ty : GoType)
    (res : Val) (wPtrs : List Nat)
    (h : ∀ p, aplr.apply p off ty res = .ok ()) :
    applyAll aplr nm off ty res wPtrs
      = (wPtrs.map (fun p => Event.applyField p off ty res), none) := by
  induction wPtrs with
  | nil => rfl
  | cons p rest ih =>
    unfold applyAll
    rw [h p, ih]
    rfl

theorem checkArgs_mismatch (wet : GoType) (ws : List WalkedArg) (i : Nat)
    (hall : ∀ w ∈ ws, ∃ t, elemType w.typ = .ok t)
    (hdiff : ∃ w ∈ ws, ∀ t, elemType w.typ = .ok t → (wet == t) = false) :
    ∃ k : Nat, checkArgs wet ws i
      = some (.wrap ("walked argument " ++ toString k) .walkArgsMismatch) := by
  induction ws generalizing i with
  | nil =>
    obtain ⟨w, hw, _⟩ := hdiff
    cases hw
  | cons w rest ih =>
    obtain ⟨t, ht⟩ := hall w (by simp)
    by_cases hbe : (wet == t) = false
    · refine ⟨i, ?_⟩
      unfold checkArgs
      rw [ht]
      simp [hbe, wrapE]
    · have hstep : checkArgs wet (w :: rest) i = checkArgs wet rest (i + 1) := by
        conv_lhs => unfold checkArgs
        rw [ht]
        simp [hbe]
      rw [hstep]
      refine ih (i + 1) (fun w' hw' => hall w' (by simp [hw'])) ?_
      obtain ⟨w', hw', hprop⟩ := hdiff
      rcases List.mem_cons.mp hw' with heq | hmem
      · exact absurd (hprop t (by rw [heq]; exact ht)) hbe
      · exact ⟨w', hmem, hprop⟩

/-! ## Claims -/

/-- C1.  The claim says a field with a missing or `"-"` tag is skipped
and the build succeeds for the remaining fields.  The code instead
aborts the whole build: `buildField` returns `ErrEmptyTag` and
`buildTree` returns on any non-nil error before its skip test can run.
Evaluated at `struct T1 { A int }` (no tag) and
`struct T1d { A int `op:"-"` }`, `GetOrBuild` fails with the wrapped
empty-tag error instead of producing a plan. -/
theorem c1_untagged_field_fails_build :
    getOrBuild gComb tyT1 BState.empty
      = (BState.empty,
         .error (.wrap "building struct recipe for type T1" (.wrap "field A, exec tree" .emptyTag)))
    ∧ getOrBuild gComb tyT1d BState.empty
      = (BState.empty,
         .error (.wrap "building struct recipe for type T1d" (.wrap "field A, exec tree" .emptyTag))) :=
  ⟨rfl, rfl⟩

/-- C3.  First half (holds): on a `FirstSuccess` leaf with operations
`[A, B]`, when `A` succeeds the trace holds only `A`'s invocation and
the leaf's result is `A`'s result.  Second half (refutes the claim's
"if `A` fails, `B` is invoked with the same sources"): when `A` fails
the walk aborts with `A`'s wrapped error and `B` is never invoked —
the trace again holds only `A`'s invocation. -/
theorem c3_firstsuccess_divergence :
    walkCombiner combD (leafFS ropOkA) [10] memNil
      = ([.readField 10, .execOp "A" [.vNil]], .ok (.vStr "resA"))
    ∧ walkCombiner combD (leafFS ropFailA) [10] memNil
      = ([.readField 10, .execOp "A" [.vNil]],
         .error (.wrap "executing operation A on field F" (.opFailed "boom"))) :=
  ⟨rfl, rfl⟩

/-- C8.  A combine or apply call with an empty instance list fails
immediately with the wrapped "no walked arguments provided" error, an
empty trace, and an unchanged cache state — in particular not with a
`goPanic` (Go nil-pointer crash). -/
theorem c8_empty_walked_fails_cleanly (reg : OpRegistry) (g : Grammar)
    (ctx : Option ExecContext) (mem : Mem) (vals : List Val) (st : BState) :
    executeCombineWalk reg g ctx [] mem st
      = ([], st, .error (.wrap "preparing combine execute" .noWalkedArgs))
    ∧ executeApplyWalk reg g ctx [] vals st
      = ([], st, some (.wrap "preparing apply execute" .noWalkedArgs)) :=
  ⟨rfl, rfl⟩

/-- C9 counterexample.  `Builder.Build` invoked directly on the
non-record type `int` does not return the not-a-record-type error: it
reaches `reflect.Type.NumField`, which panics (a crash), refuting "the
Plan Builder's build operation fails with a not-a-record-type error
... and does not crash" for the `Build` entry point. -/
theorem c9_build_panics_on_nonstruct :
    build gComb (.prim "int" .kInt) false BState.empty
      = (BState.empty, .error (.goPanic "reflect: NumField of non-struct type int"))
    ∧ (build gComb (.prim "int" .kInt) false BState.empty).2
      ≠ .error .notStructKind := by
  refine ⟨rfl, ?_⟩
  intro h
  simp [build, buildRecipe, buildTree, wrapE] at h

/-- C9 amended.  `Builder.GetOrBuild` (the get-or-build entry point)
rejects every non-record type with `ErrNotStructKind`, leaves the cache
untouched and produces no plan; only `Build` called directly crashes. -/
theorem c9_getorbuild_rejects_nonstruct (g : Grammar) (t : GoType) (st : BState)
    (h : (t.kind == GoKind.kStruct) = false) :
    getOrBuild g t st = (st, .error .notStructKind) := by
  unfold getOrBuild
  rw [h]
  rfl

/-- Witness for C9: `GetOrBuild` on the `int` type. -/
theorem c9_getorbuild_rejects_nonstruct_witness :
    getOrBuild gComb (.prim "int" .kInt) BState.empty
      = (BState.empty, .error .notStructKind) :=
  c9_getorbuild_rejects_nonstruct gComb (.prim "int" .kInt) BState.empty rfl

/-- C2 counterexample.  One combine call for `TE` with a per-call
combiner override `combO` (zero `vNil`); the grammar default is `combD`
(zero `vBool true`).  After the call the cached plan's combiner is the
override, not the default, and a later call without any override
returns `vNil` — the override's semantics — where the default-combiner
call returns `vBool true`.  This refutes "the override affects that
single call only". -/
theorem c2_override_not_restored :
    (executeCombineWalk regA gComb ctxO walkedTE memNil BState.empty).2.2 = .ok .vNil
    ∧ ((((executeCombineWalk regA gComb ctxO walkedTE memNil BState.empty).2.1).heap 0).map
        fun r => r.combiner.map Combiner.zero) = some (some .vNil)
    ∧ combD.zero = .vBool true
    ∧ Val.vNil ≠ Val.vBool true
    ∧ (executeCombineWalk regA gComb none walkedTE memNil
        (executeCombineWalk regA gComb ctxO walkedTE memNil BState.empty).2.1).2.2 = .ok .vNil
    ∧ (executeCombineWalk regA gComb none walkedTE memNil BState.empty).2.2 = .ok (.vBool true) := by
  refine ⟨rfl, rfl, rfl, ?_, rfl, rfl⟩
  decide

/-- C2 amended.  A per-call override is assigned directly onto the
cached plan and persists after the call: the plan's combiner becomes
the override, and a call without an override context leaves the state
(hence the overridden combiner) untouched, so later override-free calls
use the last override rather than the grammar default. -/
theorem c2_override_persists (st : BState) (id : Nat) (rcp : Recipe) (cb : Combiner)
    (h1 : st.heap id = some rcp) (h2 : rcp.walkType = .combine) :
    (applyContext (some { combinerOverride := some cb }) id st).heap id
      = some { rcp with combiner := some cb }
    ∧ ∀ st' : BState, applyContext none id st' = st' := by
  constructor
  · obtain ⟨rt, ar, wt, cmb, apl, trf, rsv⟩ := rcp
    change wt = WalkType.combine at h2
    subst h2
    unfold applyContext
    rw [h1]
    simp [BState.write]
  · intro st'
    rfl

/-- Witness for C2: a combine recipe at id `0`. -/
theorem c2_override_persists_witness :
    (applyContext (some { combinerOverride := some combO }) 0
        (BState.empty.write 0 rcpTEr)).heap 0
      = some { rcpTEr with combiner := some combO }
    ∧ ∀ st' : BState, applyContext none 0 st' = st' :=
  c2_override_persists (BState.empty.write 0 rcpTEr) 0 rcpTEr combO rfl rfl

/-- C4.  Resolution of `T4` (leaves `A` with op `"a"`, `B` with op
`"b"`) against a registry holding only `"a"` fails, but the already
cached plan's leaf `A` keeps the resolved operation appended before the
failure; the retry does not start from scratch — it appends again,
leaving `["a", "a"]` — and the plan stays unresolved.  This refutes "no
leaf retains partially appended resolved operations, and a subsequent
call ... produc[es] the same per-leaf resolved operation lists that a
first-time successful resolution would". -/
theorem c4_failed_resolution_leaves_partial_state :
    (resolveRecipe regA gComb tyT4 BState.empty).2
      = .error (.wrap "resolving exec tree" (.wrap "field B, resolving operation b" .opNotFound))
    ∧ ((st4a.heap 0).map fun r => r.root.children.map ExecTree.opNames) = some [["a"], []]
    ∧ ((st4a.heap 0).map Recipe.resolved) = some false
    ∧ (resolveRecipe regA gComb tyT4 st4a).2
      = .error (.wrap "resolving exec tree" (.wrap "field B, resolving operation b" .opNotFound))
    ∧ ((st4b.heap 0).map fun r => r.root.children.map ExecTree.opNames) = some [["a", "a"], []]
    ∧ ((st4b.heap 0).map Recipe.resolved) = some false :=
  ⟨rfl, rfl, rfl, rfl, rfl, rfl⟩

/-- C6.  Every recipe `buildRecipe` produces (the recipe `Build` and a
cache-missing `GetOrBuild` return) has `Arity` equal to the `OpArity`
zero value `0`, because `buildRecipe` never assigns the field; and
resolving any leaf whose (registered) operation declares arity
`OpUnary = 1` or `OpVariadic = 255` fails with the arity-mismatch
error against that recipe arity `0`, so such a plan never resolves. -/
theorem c6_recipe_arity_zero_blocks_resolution
    (g : Grammar) (wt : GoType) (rcp : Recipe) (reg : OpRegistry)
    (d : NodeData) (cs : List ExecTree) (lop : LazyOperation) (op : Operation)
    (h1 : buildRecipe g wt = .ok rcp)
    (h2 : d.lazyOps = [lop])
    (h3 : getOperation reg lop.name = .ok op)
    (h4 : op.arity = opUnary ∨ op.arity = opVariadic) :
    rcp.arity = 0
    ∧ (resolveTree reg (.mk d cs) 0).2
      = some (.arityMismatch d.name lop.name op.arity 0) := by
  have hne : ¬ op.arity = 0 := by
    rcases h4 with h | h <;> simp [h, opUnary, opVariadic]
  constructor
  · unfold buildRecipe at h1
    split at h1
    · simp at h1
    · split at h1 <;> split at h1 <;>
        first
        | (simp only [Except.ok.injEq] at h1; rw [← h1])
        | simp at h1
  · have hro : resolveOperation reg lop
        = .ok { name := lop.name, opts := lop.opts, op := op } := by
      unfold resolveOperation
      rw [h3]
    have hops : resolveOps reg d.name 0 d.operations [lop]
        = (d.operations, some (.arityMismatch d.name lop.name op.arity 0)) := by
      unfold resolveOps
      rw [hro]
      simp [hne]
    unfold resolveTree
    rw [h2, hops]

/-- Witness for C6: the combine grammar, the empty record type `TE`
(yielding `rcpTEB`), and a leaf `F` referencing the registered unary
operation `"u"`. -/
theorem c6_recipe_arity_zero_blocks_resolution_witness :
    rcpTEB.arity = 0
    ∧ (resolveTree regU (.mk { name := "F", lazyOps := [{ name := "u" }] } []) 0).2
      = some (.arityMismatch "F" "u" 1 0) :=
  c6_recipe_arity_zero_blocks_resolution gComb tyTE rcpTEB regU
    { name := "F", lazyOps := [{ name := "u" }] } [] { name := "u" } opU
    rfl rfl rfl (Or.inl rfl)

/-- C10.  On a leaf whose first operation succeeds with result `res`,
the walk makes one `Applier.Apply` call per walked instance — in
instance order, all at the leaf's field offset and field type, all with
`res` — under `FirstSuccess` (where it then stops) and equally under
`AllOrNothing` when it is the only operation. -/
theorem c10_apply_writes_each_instance (aplr : Applier) (d : NodeData)
    (wPtrs : List Nat) (vals : List Val) (rop : ResolvedOperation)
    (rest : List ResolvedOperation) (res : Val)
    (hops : d.operations = rop :: rest)
    (hexec : rop.op.execute rop.opts vals = .ok res)
    (haplr : ∀ p, aplr.apply p d.fieldOffset d.fieldType res = .ok ()) :
    (d.opStrategy = firstSuccess →
      walkApplier aplr (.mk d []) wPtrs vals
        = (.execOp rop.name vals
            :: wPtrs.map (fun p => Event.applyField p d.fieldOffset d.fieldType res), none))
    ∧ (d.opStrategy = allOrNothing → rest = [] →
      walkApplier aplr (.mk d []) wPtrs vals
        = (.execOp rop.name vals
            :: wPtrs.map (fun p => Event.applyField p d.fieldOffset d.fieldType res), none)) := by
  have hleaf : walkApplier aplr (.mk d []) wPtrs vals
      = applyLeafOps aplr d wPtrs vals (rop :: rest) := by
    unfold walkApplier
    simp [hops]
  constructor
  · intro hs
    rw [hleaf]
    unfold applyLeafOps
    rw [hexec]
    simp [applyAll_ok aplr d.name d.fieldOffset d.fieldType res wPtrs haplr, hs,
      firstSuccess]
  · intro hs hrest
    subst hrest
    rw [hleaf]
    unfold applyLeafOps
    rw [hexec]
    simp [applyAll_ok aplr d.name d.fieldOffset d.fieldType res wPtrs haplr, hs,
      allOrNothing, firstSuccess, applyLeafOps]

/-- Witness for C10: three instances at `100, 200, 300`, field offset
`4`, string field type; the operation's single result `"w"` is applied
three times, once per instance, in instance order. -/
theorem c10_apply_writes_each_instance_witness :
    walkApplier aplOk (.mk dApply []) [100, 200, 300] [.vInt 7]
      = (.execOp "B" [.vInt 7]
          :: [.applyField 100 4 (.prim "string" .kString) (.vStr "w"),
              .applyField 200 4 (.prim "string" .kString) (.vStr "w"),
              .applyField 300 4 (.prim "string" .kString) (.vStr "w")], none) :=
  (c10_apply_writes_each_instance aplOk dApply [100, 200, 300] [.vInt 7]
      { name := "B", op := { arity := 0, execute := fun _ _ => .ok (.vStr "w") } } []
      (.vStr "w") rfl rfl (fun _ => rfl)).1 rfl

/-- C7.  A combine or apply call whose instance list mixes two
different record types (all arguments being pointers to records, and
the call otherwise able to reach the argument check) fails with the
type-mismatch error `ErrWalkArgsMismatch`, with an empty trace: no
field of any instance is read (`readField`) or written (`applyField`)
before the failure. -/
theorem c7_mixed_types_fail_before_field_access
    (reg : OpRegistry) (g : Grammar) (ctx : Option ExecContext)
    (walked : List WalkedArg) (w0 : WalkedArg) (rest : List WalkedArg)
    (wet : GoType) (st st1 : BState) (id : Nat) (rcp : Recipe)
    (mem : Mem) (vals : List Val)
    (hW : walked = w0 :: rest)
    (h0 : elemType w0.typ = .ok wet)
    (hrr : resolveRecipe reg g wet st = (st1, .ok id))
    (hrcp : st1.heap id = some rcp)
    (hall : ∀ w ∈ rest, ∃ t, elemType w.typ = .ok t)
    (hdiff : ∃ w ∈ rest, ∀ t, elemType w.typ = .ok t → (wet == t) = false) :
    (rcp.walkType = .combine →
      ∃ st2 e, executeCombineWalk reg g ctx walked mem st = ([], st2, .error e)
        ∧ e.is .walkArgsMismatch = true)
    ∧ (rcp.walkType = .apply →
      ∃ st2 e, executeApplyWalk reg g ctx walked vals st = ([], st2, some e)
        ∧ e.is .walkArgsMismatch = true) := by
  obtain ⟨k, hk⟩ := checkArgs_mismatch wet rest 1 hall hdiff
  constructor
  · intro hwt
    have hprep : prepareExecute reg g ctx .combine walked st
        = (applyContext ctx id st1,
           .error (.wrap ("walked argument " ++ toString k) .walkArgsMismatch)) := by
      subst hW
      unfold prepareExecute
      simp [h0, hrr, hrcp, hwt, hk]
    refine ⟨applyContext ctx id st1,
      .wrap "preparing combine execute"
        (.wrap ("walked argument " ++ toString k) .walkArgsMismatch), ?_, ?_⟩
    · unfold executeCombineWalk
      rw [hprep]
      rfl
    · rw [GoErr.wrap_is _ _ _ (by simp), GoErr.wrap_is _ _ _ (by simp)]
      exact GoErr.is_self _
  · intro hwt
    have hprep : prepareExecute reg g ctx .apply walked st
        = (applyContext ctx id st1,
           .error (.wrap ("walked argument " ++ toString k) .walkArgsMismatch)) := by
      subst hW
      unfold prepareExecute
      simp [h0, hrr, hrcp, hwt, hk]
    refine ⟨applyContext ctx id st1,
      .wrap "preparing apply execute"
        (.wrap ("walked argument " ++ toString k) .walkArgsMismatch), ?_, ?_⟩
    · unfold executeApplyWalk
      rw [hprep]
      rfl
    · rw [GoErr.wrap_is _ _ _ (by simp), GoErr.wrap_is _ _ _ (by simp)]
      exact GoErr.is_self _

/-- Witness for C7: a `*TE` instance and a `*TU` instance in one
combine call. -/
theorem c7_mixed_types_fail_before_field_access_witness :
    ∃ st2 e, executeCombineWalk regA gComb none walkedTEU memNil BState.empty
        = ([], st2, .error e) ∧ e.is .walkArgsMismatch = true :=
  (c7_mixed_types_fail_before_field_access regA gComb none walkedTEU
      ⟨.ptr tyTE, 100⟩ [⟨.ptr tyTU, 200⟩] tyTE BState.empty
      (resolveRecipe regA gComb tyTE BState.empty).1 0 rcpTEr memNil []
      rfl rfl rfl rfl
      (fun w hw => by
        rw [List.mem_singleton] at hw
        subst hw
        exact ⟨tyTU, rfl⟩)
      ⟨⟨.ptr tyTU, 200⟩, List.mem_singleton.mpr rfl, fun t ht => by
        have hteq : tyTU = t := by simpa [elemType, tyTU, GoType.kind] using ht
        subst hteq
        decide⟩).1 rfl

/-- Success postcondition of `resolveRecipe`: the walked element type
is a struct, the returned state holds a recipe at the returned id with
`resolved = true`, and the cache maps the type to that id. -/
theorem resolveRecipe_ok_state (reg : OpRegistry) (g : Grammar) (wet : GoType)
    (st0 st1 : BState) (id : Nat)
    (h : resolveRecipe reg g wet st0 = (st1, .ok id)) :
    (wet.kind == GoKind.kStruct) = true
    ∧ ∃ rcp : Recipe, st1.heap id = some rcp ∧ rcp.resolved = true
      ∧ st1.cache wet = some id := by
  unfold resolveRecipe at h
  split at h
  · simp at h
  rename_i stA idA heqG
  split at h
  · simp at h
  rename_i rcp0 hsome
  split at h
  · -- already-resolved branch
    unfold builderSet at h
    split at h
    · rename_i hkind
      simp only [Prod.mk.injEq, Except.ok.injEq] at h
      obtain ⟨hst, hid⟩ := h
      subst hid
      subst hst
      refine ⟨hkind, { rcp0 with resolved := true }, ?_, rfl, ?_⟩
      · simp [BState.setCache, BState.write]
      · simp [BState.setCache, BState.write, GoType.beq_self']
    · simp at h
  · -- resolveTree branch
    split at h
    · simp at h
    rename_i root' hnone
    unfold builderSet at h
    split at h
    · rename_i hkind
      simp only [Prod.mk.injEq, Except.ok.injEq] at h
      obtain ⟨hst, hid⟩ := h
      subst hid
      subst hst
      refine ⟨hkind, { rcp0 with root := root', resolved := true }, ?_, rfl, ?_⟩
      · simp [BState.setCache, BState.write]
      · simp [BState.setCache, BState.write, GoType.beq_self']
    · simp at h

/-- A second `resolveRecipe` on a cached, already-resolved recipe is a
no-op on the recipe: it skips `resolveTree`, re-sets the (already true)
flag and re-publishes the same pointer. -/
theorem resolveRecipe_cached_resolved (reg : OpRegistry) (g : Grammar)
    (wet : GoType) (st1 : BState) (id : Nat) (rcp : Recipe)
    (hkind : (wet.kind == GoKind.kStruct) = true)
    (hcache : st1.cache wet = some id)
    (hheap : st1.heap id = some rcp)
    (hres : rcp.resolved = true) :
    ∃ st2, resolveRecipe reg g wet st1 = (st2, .ok id)
      ∧ st2.heap id = st1.heap id := by
  obtain ⟨rt, ar, wt, cmb, apl, trf, rsv⟩ := rcp
  change rsv = true at hres
  subst hres
  refine ⟨(st1.write id (Recipe.mk rt ar wt cmb apl trf true)).setCache wet id, ?_, ?_⟩
  · unfold resolveRecipe getOrBuild builderSet
    simp [hkind, hcache, hheap]
  · simp [BState.setCache, BState.write, hheap]

/-- C5.  After a successful first resolution (any `resolveRecipe` call
that returned `ok`), the plan's `resolved` flag is true, and resolving
the same plan a second time succeeds with the very same recipe id and
leaves the recipe untouched: the heap cell — hence every leaf's list
of resolved operations, in length and order, and the `resolved` flag —
is identical before and after the second resolution. -/
theorem c5_reresolution_idempotent (reg : OpRegistry) (g : Grammar)
    (wet : GoType) (st0 st1 : BState) (id : Nat)
    (h : resolveRecipe reg g wet st0 = (st1, .ok id)) :
    ((st1.heap id).map Recipe.resolved) = some true
    ∧ ∃ st2, resolveRecipe reg g wet st1 = (st2, .ok id)
      ∧ st2.heap id = st1.heap id := by
  obtain ⟨hkind, rcp, hheap, hres, hcache⟩ := resolveRecipe_ok_state reg g wet st0 st1 id h
  constructor
  · rw [hheap]
    simp [hres]
  · exact resolveRecipe_cached_resolved reg g wet st1 id rcp hkind hcache hheap hres

/-- Witness for C5: `T5` resolved against `regA` once, then again. -/
theorem c5_reresolution_idempotent_witness :
    ((st5.heap 0).map Recipe.resolved) = some true
    ∧ ∃ st2, resolveRecipe regA gComb tyT5 st5 = (st2, .ok 0)
      ∧ st2.heap 0 = st5.heap 0 :=
  c5_reresolution_idempotent regA gComb tyT5 BState.empty st5 0 rfl

end GoRecipe
